import Mathlib

/-!
Verification of the query sanitiser and tool glue of `src/mcp_applemusic.py`.

The Python source is embedded shallowly: strings are Lean `String`s,
`str.replace` with a one-character pattern becomes structural recursion on the
character list, `re.sub` with a negated character class becomes `List.filter`,
slicing `[:100]` becomes `List.take 100`, and the external `subprocess.run`
call is abstracted by an explicit `ProcOutcome` argument describing what the
operating system did.
-/

namespace MCPAppleMusic

/-- The single-quote character, written by code point. -/
def squote : Char := Char.ofNat 39

/-- Membership in the regex class `\w` (word characters): letters, digits and
underscore. -/
def isWordChar (c : Char) : Bool := c.isAlphanum || c = '_'

/-- Membership in the regex class `\s` (whitespace characters). -/
def isSpaceChar (c : Char) : Bool :=
  c = ' ' || c = '\t' || c = '\n' || c = '\r' || c = '\x0b' || c = '\x0c'

/-- The characters kept by `re.sub(r'[^\w\s\-\.\(\)&]', '', query)`
(src/mcp_applemusic.py line 11): word characters, whitespace, hyphen,
period, parentheses and ampersand. -/
def isAllowed (c : Char) : Bool :=
  isWordChar c || isSpaceChar c ||
    c = '-' || c = '.' || c = '(' || c = ')' || c = '&'

/-- `query.replace('"', '\\"')` (line 9): each double quote becomes a
backslash followed by the quote. -/
def escapeDoubleQuotes : List Char → List Char
  | [] => []
  | c :: cs => (if c = '"' then ['\\', '"'] else [c]) ++ escapeDoubleQuotes cs

/-- `query.replace("'", "\\'")` (line 10): each single quote becomes a
backslash followed by the quote. -/
def escapeSingleQuotes : List Char → List Char
  | [] => []
  | c :: cs => (if c = squote then ['\\', squote] else [c]) ++ escapeSingleQuotes cs

/-- The body of `sanitize_query` on the character list: escape double quotes,
escape single quotes, filter to the allowed class, truncate to 100. -/
def sanitizeData (query : List Char) : List Char :=
  let q1 := escapeDoubleQuotes query
  let q2 := escapeSingleQuotes q1
  let q3 := q2.filter isAllowed
  q3.take 100

/-- `sanitize_query` (src/mcp_applemusic.py lines 6-12). -/
def sanitize_query (query : String) : String :=
  String.mk (sanitizeData query.data)

lemma sanitizeData_eq (l : List Char) :
    sanitizeData l =
      ((escapeSingleQuotes (escapeDoubleQuotes l)).filter isAllowed).take 100 := rfl

lemma data_sanitize_query (s : String) :
    (sanitize_query s).data = sanitizeData s.data := rfl

lemma isAllowed_dq : isAllowed '"' = false := by decide

lemma isAllowed_sq : isAllowed squote = false := by decide

lemma isAllowed_bs : isAllowed '\\' = false := by decide

lemma mem_sanitizeData {l : List Char} {c : Char} (h : c ∈ sanitizeData l) :
    isAllowed c = true := by
  rw [sanitizeData_eq] at h
  exact (List.mem_filter.mp (List.mem_of_mem_take h)).2

lemma allowed_ne {c : Char} (h : isAllowed c = true) :
    c ≠ '"' ∧ c ≠ squote ∧ c ≠ '\\' := by
  refine ⟨fun hc => ?_, fun hc => ?_, fun hc => ?_⟩ <;> subst hc
  · exact absurd h (by decide)
  · exact absurd h (by decide)
  · exact absurd h (by decide)

lemma length_sanitizeData (l : List Char) : (sanitizeData l).length ≤ 100 := by
  rw [sanitizeData_eq, List.length_take]
  exact Nat.min_le_left _ _

/-- Outcome of the external `subprocess.run(["osascript", "-e", script], ...)`
call, as observed by the surrounding `try` block: the process completed with a
return code, stdout and stderr; or the 30-second timeout fired
(`subprocess.TimeoutExpired`); or some other exception was raised. -/
inductive ProcOutcome where
  | completed (returncode : Int) (stdout stderr : String)
  | timedOut
  | raised (msg : String)

/-- The fixed `timeout=30` argument of `subprocess.run` (line 22). -/
def applescriptTimeoutSeconds : Nat := 30

/-- `run_applescript` (src/mcp_applemusic.py lines 15-30), with the behaviour
of the external process passed in as an explicit `ProcOutcome`. -/
def run_applescript (script : String) (outcome : ProcOutcome) : String :=
  match outcome with
  | .completed returncode stdout stderr =>
      if returncode ≠ 0 then "Error: " ++ stderr.trim else stdout.trim
  | .timedOut => "Error: AppleScript execution timed out"
  | .raised msg => "Error: " ++ msg

/-- What a tool body does before the process boundary: either return a message
directly, or hand a generated script to `run_applescript`. -/
inductive ToolAction where
  | reply (msg : String)
  | runScript (script : String)
deriving DecidableEq

/-- The fixed text of the `itunes_search` f-string before the interpolated
`{sanitized_query}` (lines 72-74). -/
def searchScriptPre : String :=
  "\n    tell application \"Music\"\n        set trackList to every track whose name contains \""

/-- The fixed text of the `itunes_search` f-string after the interpolated
`{sanitized_query}` (lines 74-81). -/
def searchScriptPost : String :=
  "\"\n        set output to \"\"\n        repeat with t in trackList\n            set output to output & (name of t) & \" - \" & (artist of t) & linefeed\n        end repeat\n        return output\n    end tell\n    "

/-- The AppleScript string built by `itunes_search` (lines 71-81). -/
def itunes_search_script (query : String) : String :=
  let sanitized_query := sanitize_query query
  searchScriptPre ++ sanitized_query ++ searchScriptPost

/-- `itunes_search` (lines 66-82) up to the process boundary: it always runs
the generated script. -/
def itunes_search (query : String) : ToolAction :=
  ToolAction.runScript (itunes_search_script query)

/-- Python `songs.split(",")` on the character list: the pieces between the
commas, so the empty input yields one empty piece. -/
def splitCommaData : List Char → List (List Char)
  | [] => [[]]
  | c :: cs =>
      if c = ',' then [] :: splitCommaData cs
      else
        match splitCommaData cs with
        | [] => [[c]]
        | p :: ps => (c :: p) :: ps

/-- Python `songs.split(",")`: the comma-separated pieces as strings. -/
def splitOnCommas (s : String) : List String :=
  (splitCommaData s.data).map String.mk

/-- Python `s.strip()`: drop whitespace from both ends. -/
def pyStrip (s : String) : String :=
  String.mk (((s.data.dropWhile isSpaceChar).reverse.dropWhile isSpaceChar).reverse)

/-- `itunes_create_playlist` (lines 102-127) up to the process boundary:
split `songs` on commas, keep the sanitised non-blank pieces, and either
reply `No songs provided.` or run the generated script. -/
def itunes_create_playlist (name songs : String) : ToolAction :=
  let song_list := (splitOnCommas songs).filterMap (fun s =>
    if pyStrip s = "" then none else some (sanitize_query (pyStrip s)))
  if song_list.isEmpty then ToolAction.reply "No songs provided."
  else
    let conditions :=
      String.intercalate " or " (song_list.map (fun s => "name is \"" ++ s ++ "\""))
    let sanitized_name := sanitize_query name
    ToolAction.runScript
      ("\n    tell application \"Music\"\n        set newPlaylist to make new user playlist with properties \x7bname:\""
        ++ sanitized_name
        ++ "\"\x7d\n        set matchingTracks to every track whose ("
        ++ conditions
        ++ ")\n        repeat with t in matchingTracks\n            duplicate t to newPlaylist\n        end repeat\n        return \"Playlist \\\""
        ++ sanitized_name
        ++ "\\\" created with \" & (count of tracks of newPlaylist) & \" tracks.\"\n    end tell\n    ")

/-- Spec 4.1 steps 1 and 2 as worded there: insert a backslash before every
occurrence of the character `t`. -/
def insertBackslashBefore (t : Char) : List Char → List Char
  | [] => []
  | c :: cs =>
      if c = t then '\\' :: c :: insertBackslashBefore t cs
      else c :: insertBackslashBefore t cs

/-- Spec 4.1 step 3 as worded there: remove every character that is not in
the allowed set. -/
def removeDisallowed : List Char → List Char
  | [] => []
  | c :: cs => if isAllowed c then c :: removeDisallowed cs else removeDisallowed cs

/-- The sanitiser as the spec words it: the four steps of section 4.1 applied
in order, each to the output of the previous. -/
def sanitize_spec (query : String) : String :=
  let step1 := insertBackslashBefore '"' query.data
  let step2 := insertBackslashBefore squote step1
  let step3 := removeDisallowed step2
  String.mk (step3.take 100)

lemma escapeDoubleQuotes_eq_self {l : List Char} (h : ∀ c ∈ l, c ≠ '"') :
    escapeDoubleQuotes l = l := by
  induction l with
  | nil => rfl
  | cons c cs ih =>
      have hc : c ≠ '"' := h c (List.mem_cons_self c cs)
      simp [escapeDoubleQuotes, hc,
        ih (fun d hd => h d (List.mem_cons_of_mem c hd))]

lemma escapeSingleQuotes_eq_self {l : List Char} (h : ∀ c ∈ l, c ≠ squote) :
    escapeSingleQuotes l = l := by
  induction l with
  | nil => rfl
  | cons c cs ih =>
      have hc : c ≠ squote := h c (List.mem_cons_self c cs)
      simp [escapeSingleQuotes, hc,
        ih (fun d hd => h d (List.mem_cons_of_mem c hd))]

lemma mem_escapeDoubleQuotes {l : List Char} {c : Char}
    (h : c ∈ escapeDoubleQuotes l) : c = '\\' ∨ c ∈ l := by
  induction l with
  | nil => simp [escapeDoubleQuotes] at h
  | cons d ds ih =>
      by_cases hd : d = '"'
      · subst hd
        rw [show escapeDoubleQuotes ('"' :: ds) =
            '\\' :: '"' :: escapeDoubleQuotes ds from by
          simp [escapeDoubleQuotes]] at h
        rw [List.mem_cons] at h
        cases h with
        | inl h => exact Or.inl h
        | inr h =>
            rw [List.mem_cons] at h
            cases h with
            | inl h => exact Or.inr (h ▸ List.mem_cons_self _ _)
            | inr h =>
                cases ih h with
                | inl h1 => exact Or.inl h1
                | inr h1 => exact Or.inr (List.mem_cons_of_mem _ h1)
      · rw [show escapeDoubleQuotes (d :: ds) = d :: escapeDoubleQuotes ds from by
          simp [escapeDoubleQuotes, hd]] at h
        rw [List.mem_cons] at h
        cases h with
        | inl h => exact Or.inr (h ▸ List.mem_cons_self _ _)
        | inr h =>
            cases ih h with
            | inl h1 => exact Or.inl h1
            | inr h1 => exact Or.inr (List.mem_cons_of_mem _ h1)

lemma mem_escapeSingleQuotes {l : List Char} {c : Char}
    (h : c ∈ escapeSingleQuotes l) : c = '\\' ∨ c ∈ l := by
  induction l with
  | nil => simp [escapeSingleQuotes] at h
  | cons d ds ih =>
      by_cases hd : d = squote
      · subst hd
        rw [show escapeSingleQuotes (squote :: ds) =
            '\\' :: squote :: escapeSingleQuotes ds from by
          simp [escapeSingleQuotes]] at h
        rw [List.mem_cons] at h
        cases h with
        | inl h => exact Or.inl h
        | inr h =>
            rw [List.mem_cons] at h
            cases h with
            | inl h => exact Or.inr (h ▸ List.mem_cons_self _ _)
            | inr h =>
                cases ih h with
                | inl h1 => exact Or.inl h1
                | inr h1 => exact Or.inr (List.mem_cons_of_mem _ h1)
      · rw [show escapeSingleQuotes (d :: ds) = d :: escapeSingleQuotes ds from by
          simp [escapeSingleQuotes, hd]] at h
        rw [List.mem_cons] at h
        cases h with
        | inl h => exact Or.inr (h ▸ List.mem_cons_self _ _)
        | inr h =>
            cases ih h with
            | inl h1 => exact Or.inl h1
            | inr h1 => exact Or.inr (List.mem_cons_of_mem _ h1)

lemma escapeDoubleQuotes_eq_insert (l : List Char) :
    escapeDoubleQuotes l = insertBackslashBefore '"' l := by
  induction l with
  | nil => rfl
  | cons c cs ih =>
      by_cases hc : c = '"' <;>
        simp [escapeDoubleQuotes, insertBackslashBefore, hc, ih]

lemma escapeSingleQuotes_eq_insert (l : List Char) :
    escapeSingleQuotes l = insertBackslashBefore squote l := by
  induction l with
  | nil => rfl
  | cons c cs ih =>
      by_cases hc : c = squote <;>
        simp [escapeSingleQuotes, insertBackslashBefore, hc, ih]

lemma filter_eq_removeDisallowed (l : List Char) :
    l.filter isAllowed = removeDisallowed l := by
  induction l with
  | nil => rfl
  | cons c cs ih =>
      by_cases hc : isAllowed c = true <;>
        simp [List.filter_cons, removeDisallowed, hc, ih]

lemma data_append (a b : String) : (a ++ b).data = a.data ++ b.data := rfl

lemma count_sanitize_query_dq (s : String) :
    (sanitize_query s).data.count '"' = 0 :=
  List.count_eq_zero.mpr (fun h => absurd (mem_sanitizeData h) (by decide))

/-- C1: every character of `sanitize_query s` lies in the allowed class
(word characters, whitespace, hyphen, period, parentheses, ampersand); in
particular the output contains no double quote, single quote or backslash. -/
theorem sanitize_query_chars_allowed (s : String) (c : Char)
    (h : c ∈ (sanitize_query s).data) :
    isAllowed c = true ∧ c ≠ '"' ∧ c ≠ squote ∧ c ≠ '\\' := by
  have hc : isAllowed c = true := mem_sanitizeData h
  exact ⟨hc, allowed_ne hc⟩

/-- Witness for C1 at the concrete input `a"b` and output character `a`. -/
theorem sanitize_query_chars_allowed_witness :
    'a' ∈ (sanitize_query "a\"b").data ∧
      (isAllowed 'a' = true ∧ 'a' ≠ '"' ∧ 'a' ≠ squote ∧ 'a' ≠ '\\') :=
  ⟨by decide, sanitize_query_chars_allowed "a\"b" 'a' (by decide)⟩

/-- C2: the output of `sanitize_query` never exceeds 100 characters; longer
inputs are truncated, never rejected. -/
theorem sanitize_query_length_le (s : String) :
    (sanitize_query s).length ≤ 100 :=
  length_sanitizeData s.data

/-- C3 counterexample: the input consisting of one double quote contains a
double quote, yet the output is empty, so the quote does not appear in the
output escaped (the two-character sequence backslash-quote is not an infix of
the output data): quotes are stripped, not escaped. -/
theorem sanitize_query_quote_not_escaped :
    ("\"".data.contains '"' = true) ∧ sanitize_query "\"" = "" ∧
      ¬ ['\\', '"'] <:+: (sanitize_query "\"").data := by
  refine ⟨by decide, by decide, ?_⟩
  intro hinf
  have hnil : (sanitize_query "\"").data = [] := by decide
  rw [hnil] at hinf
  simp at hinf

/-- C3 (amended): the sanitised output contains no double-quote and no
single-quote character at all; quote characters from the input are removed
together with the inserted backslashes, not preserved in escaped form. -/
theorem sanitize_query_no_quotes (s : String) :
    (sanitize_query s).data.count '"' = 0 ∧
      (sanitize_query s).data.count squote = 0 := by
  refine ⟨List.count_eq_zero.mpr ?_, List.count_eq_zero.mpr ?_⟩ <;>
    exact fun h => absurd (mem_sanitizeData h) (by decide)

/-- C4: on the concrete input `He said "hi"`, both quote characters and the
backslashes inserted to escape them are removed, leaving `He said hi`. -/
theorem sanitize_query_he_said_hi :
    sanitize_query "He said \"hi\"" = "He said hi" := by decide

/-- C5: `sanitize_query` is idempotent. -/
theorem sanitize_query_idempotent (s : String) :
    sanitize_query (sanitize_query s) = sanitize_query s := by
  have hmem : ∀ c ∈ sanitizeData s.data, isAllowed c = true :=
    fun c hc => mem_sanitizeData hc
  have h1 : escapeDoubleQuotes (sanitizeData s.data) = sanitizeData s.data :=
    escapeDoubleQuotes_eq_self (fun c hc => (allowed_ne (hmem c hc)).1)
  have h2 : escapeSingleQuotes (sanitizeData s.data) = sanitizeData s.data :=
    escapeSingleQuotes_eq_self (fun c hc => (allowed_ne (hmem c hc)).2.1)
  have h3 : (sanitizeData s.data).filter isAllowed = sanitizeData s.data :=
    List.filter_eq_self.mpr hmem
  have h4 : (sanitizeData s.data).take 100 = sanitizeData s.data :=
    List.take_of_length_le (length_sanitizeData s.data)
  show String.mk (sanitizeData (sanitizeData s.data)) = String.mk (sanitizeData s.data)
  rw [sanitizeData_eq (sanitizeData s.data), h1, h2, h3, h4]

/-- C6: `sanitize_query` is exactly the four-step pipeline the spec describes
(escape double quotes, escape single quotes, remove characters outside the
allowed set, truncate to 100), and the character filter also deletes every
backslash inserted by the escaping steps. -/
theorem sanitize_query_eq_spec (s : String) :
    sanitize_query s = sanitize_spec s ∧
      (sanitize_query s).data.count '\\' = 0 := by
  constructor
  · show String.mk (sanitizeData s.data) =
      String.mk ((removeDisallowed (insertBackslashBefore squote
        (insertBackslashBefore '"' s.data))).take 100)
    rw [sanitizeData_eq, escapeDoubleQuotes_eq_insert,
      escapeSingleQuotes_eq_insert, filter_eq_removeDisallowed]
  · exact List.count_eq_zero.mpr
      (fun h => absurd (mem_sanitizeData h) (by decide))

/-- C7: `sanitize_query` is total and pure: the output length is always at
most 100, the empty string maps to the empty string, and an input with no
allowed characters maps to the empty string. -/
theorem sanitize_query_total (s : String) :
    (sanitize_query s).length ≤ 100 ∧ sanitize_query "" = "" ∧
      ((∀ c ∈ s.data, isAllowed c = false) → sanitize_query s = "") := by
  refine ⟨length_sanitizeData s.data, rfl, fun h => ?_⟩
  have hnil : (escapeSingleQuotes (escapeDoubleQuotes s.data)).filter isAllowed = [] := by
    rw [List.filter_eq_nil_iff]
    intro a ha
    rcases mem_escapeSingleQuotes ha with h1 | h1
    · subst h1; exact by simp [isAllowed_bs]
    · rcases mem_escapeDoubleQuotes h1 with h2 | h2
      · subst h2; exact by simp [isAllowed_bs]
      · simp [h a h2]
  show String.mk (sanitizeData s.data) = ""
  rw [sanitizeData_eq, hnil]
  rfl

/-- Witness for C7 at the concrete input `!!`, all of whose characters are
outside the allowed set. -/
theorem sanitize_query_total_witness :
    (∀ c ∈ ("!!" : String).data, isAllowed c = false) ∧
      sanitize_query "!!" = "" :=
  ⟨by decide, (sanitize_query_total "!!").2.2 (by decide)⟩

/-- C8: `run_applescript` returns the trimmed stdout on exit code 0, an error
string built from the trimmed stderr on a non-zero exit code, a fixed timeout
message when the 30-second bound is exceeded, and an error string for any
other invocation failure; it never raises. -/
theorem run_applescript_cases (script out err e : String) (rc : Int)
    (hrc : rc ≠ 0) :
    run_applescript script (ProcOutcome.completed 0 out err) = out.trim ∧
    run_applescript script (ProcOutcome.completed rc out err) = "Error: " ++ err.trim ∧
    run_applescript script ProcOutcome.timedOut = "Error: AppleScript execution timed out" ∧
    run_applescript script (ProcOutcome.raised e) = "Error: " ++ e ∧
    applescriptTimeoutSeconds = 30 := by
  refine ⟨?_, ?_, rfl, rfl, rfl⟩
  · simp [run_applescript]
  · simp [run_applescript, hrc]

/-- Witness for C8 at return code 1. -/
theorem run_applescript_cases_witness :
    ((1 : Int) ≠ 0) ∧
      run_applescript "x" (ProcOutcome.completed 1 "a" "b") = "Error: " ++ "b".trim :=
  ⟨by decide, (run_applescript_cases "x" "a" "b" "" 1 (by decide)).2.1⟩

/-- C9: when every comma-separated piece of `songs` is empty or
whitespace-only, `itunes_create_playlist` replies `No songs provided.` and
does not run any script, whatever `name` is. -/
theorem itunes_create_playlist_no_songs (name songs : String)
    (h : ∀ p ∈ splitOnCommas songs, pyStrip p = "") :
    itunes_create_playlist name songs = ToolAction.reply "No songs provided." := by
  have hnil : (splitOnCommas songs).filterMap (fun s =>
      if pyStrip s = "" then none else some (sanitize_query (pyStrip s))) = [] := by
    rw [List.filterMap_eq_nil_iff]
    intro a ha
    simp [h a ha]
  unfold itunes_create_playlist
  rw [hnil]
  rfl

/-- Witness for C9 at `songs = " , ,"`, whose pieces are all blank. -/
theorem itunes_create_playlist_no_songs_witness :
    (∀ p ∈ splitOnCommas " , ,", pyStrip p = "") ∧
      itunes_create_playlist "My List" " , ," = ToolAction.reply "No songs provided." :=
  ⟨by decide, itunes_create_playlist_no_songs "My List" " , ," (by decide)⟩

/-- C10: the script built by `itunes_search` embeds the query only through
`sanitize_query`, whose output carries no double quote, so the script has
exactly the double quotes of the fixed template: the embedded value cannot
terminate the quoted literal around it. -/
theorem itunes_search_script_quotes (query : String) :
    itunes_search query = ToolAction.runScript (itunes_search_script query) ∧
      (sanitize_query query).data.count '"' = 0 ∧
      (itunes_search_script query).data.count '"' =
        (itunes_search_script "").data.count '"' := by
  refine ⟨rfl, count_sanitize_query_dq query, ?_⟩
  show (searchScriptPre ++ sanitize_query query ++ searchScriptPost).data.count '"' =
    (searchScriptPre ++ sanitize_query "" ++ searchScriptPost).data.count '"'
  rw [data_append, data_append, data_append, data_append,
    List.count_append, List.count_append, List.count_append, List.count_append,
    count_sanitize_query_dq, count_sanitize_query_dq]

end MCPAppleMusic
